import Mathlib

/-!
Shallow embedding of the Samsoft NES emulator core (`ultranesv0.py`):
the cartridge loader, the 6502 CPU subset, the memory bus with its
address decoding and mirroring, the picture unit, and the console
orchestration (`load_rom`, `reset`, `step_frame`).

Python byte buffers (`bytearray`, `bytes`) are modelled as `List Nat`;
an out-of-range index raises `IndexError` in Python, which is modelled
by `Option` (`none` = exception).  Machine integers are plain `Nat`
with explicit `% 2^w` exactly where the source masks (`& 0xFFFF`,
`& 0xFF`); Python integers are unbounded, so no other truncation is
introduced.
-/

/-- A cartridge as filled in by `Cartridge.load_from_file` (or
`create_test_rom`): PRG/CHR byte buffers plus mapper bookkeeping. -/
structure Cartridge where
  prg_size : Nat
  chr_size : Nat
  mapper : Nat
  prg_rom : List Nat
  chr_rom : List Nat
  deriving DecidableEq

/-- `Bus.__init__`: 2 KiB RAM, 8 PPU registers, 24 APU registers, and a
(non-owning, possibly absent) reference to the current cartridge. -/
structure Bus where
  cpu_ram : List Nat
  ppu_regs : List Nat
  apu_regs : List Nat
  cart : Option Cartridge
  deriving DecidableEq

/-- Python `b[i]` on a byte buffer: `none` models the `IndexError`
raised when `i` is out of range. -/
def bget (l : List Nat) (i : Nat) : Option Nat := l.get? i

/-- Python `b[i] = v` on a `bytearray`: `none` models `IndexError`. -/
def bset (l : List Nat) (i v : Nat) : Option (List Nat) :=
  if i < l.length then some (l.set i v) else none

/-- Fresh bus state built by `Bus.__init__(cart)`. -/
def Bus.init (cart : Cartridge) : Bus :=
  { cpu_ram := List.replicate 0x0800 0
    ppu_regs := List.replicate 8 0
    apu_regs := List.replicate 0x0018 0
    cart := some cart }

/-- The sizes `Bus.__init__` establishes for the three byte buffers. -/
def Bus.WF (b : Bus) : Prop :=
  b.cpu_ram.length = 0x0800 ∧ b.ppu_regs.length = 8 ∧
    b.apu_regs.length = 0x0018

instance (b : Bus) : Decidable b.WF := by unfold Bus.WF; infer_instance

/-- `Bus.cpu_read`: mask the address to 16 bits, then dispatch on the
memory map (RAM mirrored every 0x800, PPU registers mirrored every 8,
APU/IO window, PRG ROM with modulo wrap, otherwise 0). -/
def Bus.cpu_read (b : Bus) (addr : Nat) : Option Nat :=
  let addr := addr % 0x10000
  if addr < 0x2000 then bget b.cpu_ram (addr % 0x0800)
  else if addr < 0x4000 then bget b.ppu_regs (addr % 8)
  else if addr < 0x4020 then bget b.apu_regs (addr - 0x4000)
  else if 0x8000 ≤ addr then
    match b.cart with
    | some cart =>
      if cart.prg_rom ≠ [] then
        let prg_addr := addr - 0x8000
        let prg_addr :=
          if cart.prg_rom.length ≤ prg_addr then prg_addr % cart.prg_rom.length
          else prg_addr
        bget cart.prg_rom prg_addr
      else some 0
    | none => some 0
  else some 0

/-- `Bus.cpu_write`: mask address and value, then dispatch; addresses
from 0x4020 up are silently ignored. -/
def Bus.cpu_write (b : Bus) (addr v : Nat) : Option Bus :=
  let addr := addr % 0x10000
  let v := v % 0x100
  if addr < 0x2000 then
    (bset b.cpu_ram (addr % 0x0800) v).map (fun r => { b with cpu_ram := r })
  else if addr < 0x4000 then
    (bset b.ppu_regs (addr % 8) v).map (fun r => { b with ppu_regs := r })
  else if addr < 0x4020 then
    (bset b.apu_regs (addr - 0x4000) v).map (fun r => { b with apu_regs := r })
  else some b

/-- CPU register file and counters of `CPU6502`. -/
structure CPU6502 where
  A : Nat
  X : Nat
  Y : Nat
  SP : Nat
  PC : Nat
  P : Nat
  cycles : Nat
  total_cycles : Nat
  halted : Bool
  deriving DecidableEq

/-- `CPU6502.__init__` register values. -/
def CPU6502.init : CPU6502 :=
  { A := 0, X := 0, Y := 0, SP := 0xFD, PC := 0x8000, P := 0x24
    cycles := 0, total_cycles := 0, halted := false }

/-- `_set_zn`: `P = (P & ~0x82) | (0x02 if v == 0 else 0) |
(0x80 if v & 0x80 else 0)`.  Clearing bits 1 and 7 of a natural is
subtracting the masked part. -/
def setZN (P v : Nat) : Nat :=
  (P - (P &&& 0x82)) ||| (if v = 0 then 0x02 else 0) |||
    (if v &&& 0x80 ≠ 0 then 0x80 else 0)

/-- `CPU6502.reset`: the reset vector is read under a `try`; if either
byte read raises, `PC` falls back to 0x8000. -/
def CPU6502.reset (read : Nat → Option Nat) (c : CPU6502) : CPU6502 :=
  let pc :=
    match read 0xFFFC, read 0xFFFD with
    | some lo, some hi => (hi <<< 8) ||| lo
    | _, _ => 0x8000
  { c with PC := pc, SP := 0xFD, P := 0x24, A := 0, X := 0, Y := 0
           cycles := 7, total_cycles := 0, halted := false }

/-- The epilogue every non-halted path of `CPU6502.step` runs:
`self.total_cycles += self.cycles` (the already-updated `cycles`). -/
def CPU6502.commit {M : Type} (s : CPU6502) (m : M) : Option (CPU6502 × M) :=
  some ({ s with total_cycles := s.total_cycles + s.cycles }, m)

/-- The opcode dispatch of `CPU6502.step` (the `if opcode == ...` /
`elif` chain, rendered as a first-match dispatch on the same opcode
literals), applied to the state whose `PC` has already been advanced
past the opcode byte.  `none` models a Python exception escaping the
step; the final catch-all is the "unknown opcode - treat as NOP" arm. -/
def CPU6502.exec {M : Type} (read : M → Nat → Option Nat)
    (write : M → Nat → Nat → Option M) (m : M) (opcode : Nat) (s : CPU6502) :
    Option (CPU6502 × M) :=
  match opcode with
  | 0xEA =>
    CPU6502.commit { s with cycles := s.cycles + 2 } m
  | 0xA9 =>
    match read m s.PC with
    | none => none
    | some v =>
      CPU6502.commit { s with PC := (s.PC + 1) % 0x10000, A := v, P := setZN s.P v, cycles := s.cycles + 2 } m
  | 0xA2 =>
    match read m s.PC with
    | none => none
    | some v =>
      CPU6502.commit { s with PC := (s.PC + 1) % 0x10000, X := v, P := setZN s.P v, cycles := s.cycles + 2 } m
  | 0xA0 =>
    match read m s.PC with
    | none => none
    | some v =>
      CPU6502.commit { s with PC := (s.PC + 1) % 0x10000, Y := v, P := setZN s.P v, cycles := s.cycles + 2 } m
  | 0x85 =>
    match read m s.PC with
    | none => none
    | some addr =>
      match write m addr s.A with
      | none => none
      | some m2 =>
        CPU6502.commit { s with PC := (s.PC + 1) % 0x10000, cycles := s.cycles + 3 } m2
  | 0x86 =>
    match read m s.PC with
    | none => none
    | some addr =>
      match write m addr s.X with
      | none => none
      | some m2 =>
        CPU6502.commit { s with PC := (s.PC + 1) % 0x10000, cycles := s.cycles + 3 } m2
  | 0x84 =>
    match read m s.PC with
    | none => none
    | some addr =>
      match write m addr s.Y with
      | none => none
      | some m2 =>
        CPU6502.commit { s with PC := (s.PC + 1) % 0x10000, cycles := s.cycles + 3 } m2
  | 0xAA =>
    CPU6502.commit { s with X := s.A, P := setZN s.P s.A, cycles := s.cycles + 2 } m
  | 0xA8 =>
    CPU6502.commit { s with Y := s.A, P := setZN s.P s.A, cycles := s.cycles + 2 } m
  | 0xE8 =>
    CPU6502.commit { s with X := (s.X + 1) % 0x100, P := setZN s.P ((s.X + 1) % 0x100), cycles := s.cycles + 2 } m
  | 0xC8 =>
    CPU6502.commit { s with Y := (s.Y + 1) % 0x100, P := setZN s.P ((s.Y + 1) % 0x100), cycles := s.cycles + 2 } m
  | 0xCA =>
    CPU6502.commit { s with X := (s.X + 255) % 0x100, P := setZN s.P ((s.X + 255) % 0x100), cycles := s.cycles + 2 } m
  | 0x88 =>
    CPU6502.commit { s with Y := (s.Y + 255) % 0x100, P := setZN s.P ((s.Y + 255) % 0x100), cycles := s.cycles + 2 } m
  | 0x4C =>
    match read m s.PC with
    | none => none
    | some lo =>
      match read m ((s.PC + 1) % 0x10000) with
      | none => none
      | some hi =>
        CPU6502.commit { s with PC := (hi <<< 8) ||| lo, cycles := s.cycles + 3 } m
  | 0x00 =>
    CPU6502.commit { s with halted := true, cycles := s.cycles + 7 } m
  | _ =>
    CPU6502.commit { s with cycles := s.cycles + 2 } m

/-- `CPU6502.step` over an abstract memory `M` with the injected
`mem_read` / `mem_write` callbacks (as the constructor takes them):
a halted CPU only pays one cycle; otherwise fetch the opcode at `PC`,
advance `PC` with 16-bit wraparound, and dispatch. -/
def CPU6502.step {M : Type} (read : M → Nat → Option Nat)
    (write : M → Nat → Nat → Option M) (m : M) (s : CPU6502) :
    Option (CPU6502 × M) :=
  if s.halted then some ({ s with cycles := s.cycles + 1 }, m)
  else
    match read m s.PC with
    | none => none
    | some opcode =>
      CPU6502.exec read write m opcode { s with PC := (s.PC + 1) % 0x10000 }

/-- The four magic bytes `b"NES\x1a"` checked by the loader. -/
def nesMagic : List Nat := [0x4E, 0x45, 0x53, 0x1A]

/-- `Cartridge.load_from_file`, applied to the byte contents of an
existing file (`f.read(16)` / `f.read(n)` return the available prefix
when the file is short).  `Except.error` models the raised exception:
the `ValueError("Not a valid iNES file")` on a bad magic, or the
`IndexError` from `header[4..7]` when the header is shorter than
8 bytes. -/
def Cartridge.load_from_file (data : List Nat) : Except String Cartridge :=
  let header := data.take 16
  if header.take 4 ≠ nesMagic then Except.error "Not a valid iNES file"
  else
    match bget header 4, bget header 5, bget header 6, bget header 7 with
    | some prg_rom_chunks, some chr_rom_chunks, some b6, some b7 =>
      let mapper := (b6 >>> 4) ||| (b7 &&& 0xF0)
      let prg_size := prg_rom_chunks * 16 * 1024
      let chr_size := chr_rom_chunks * 8 * 1024
      let prg_rom := (data.drop 16).take prg_size
      let chr_rom :=
        if chr_size ≠ 0 then (data.drop (16 + prg_rom.length)).take chr_size else []
      Except.ok { prg_size := prg_size, chr_size := chr_size, mapper := mapper,
                  prg_rom := prg_rom, chr_rom := chr_rom }
    | _, _, _, _ => Except.error "IndexError"

/-- A frame buffer, indexed `frame y x` like the `(240, 256, 3)` numpy
array; storing into the `uint8` array truncates each channel mod 256. -/
abbrev Frame := Nat → Nat → Nat × Nat × Nat

/-- The `uint8` truncation applied to an RGB triple on assignment. -/
def clamp8 (v : Nat × Nat × Nat) : Nat × Nat × Nat :=
  (v.1 % 256, v.2.1 % 256, v.2.2 % 256)

/-- `self.frame[y, x] = v`. -/
def updatePix (f : Frame) (y x : Nat) (v : Nat × Nat × Nat) : Frame :=
  fun y2 x2 => if y2 = y ∧ x2 = x then clamp8 v else f y2 x2

/-- `PPU` state: frame buffer plus the frame/scanline/dot counters. -/
structure PPU where
  frame : Frame
  frame_count : Nat
  scanline : Nat
  cycle : Nat

/-- `PPU.__init__`: `np.zeros((240, 256, 3))` and zeroed counters. -/
def PPU.init : PPU :=
  { frame := fun _ _ => (0, 0, 0), frame_count := 0, scanline := 0, cycle := 0 }

/-- The RGB value `render_frame` computes for position `(y, x)` given
`tick`, with the pattern selected by `(tick // 60) % 4`.  `sine`
abstracts the float computation `int(128 + 127 * np.sin(t * 0.05))`
of the wave pattern (a fixed function of its integer argument
`x + tick * 2`; its values lie in `[1, 255]`). -/
def PPU.pixel (sine : Nat → Nat) (tick y x : Nat) : Nat × Nat × Nat :=
  match (tick / 60) % 4 with
  | 0 => ((x + tick * 2) % 256, (y + tick) % 256, (x * y / 256 + tick * 3) % 256)
  | 1 =>
    let checker := (x / 16 + y / 16) % 2
    let color := if checker ≠ 0 then 255 else 0
    let shift := tick * 4 % 256
    (color, (color + shift) % 256, shift)
  | 2 =>
    let wave := sine (x + tick * 2)
    (wave, 255 - wave, tick * 2 % 256)
  | _ =>
    let bar := x / 32
    [(255, 0, 0), (255, 128, 0), (255, 255, 0), (0, 255, 0),
     (0, 255, 255), (0, 0, 255), (128, 0, 255), (255, 0, 255)].getD (bar % 8) (0, 0, 0)

/-- The nested `for y in range(240): for x in range(256):` loops of
`render_frame`, writing every pixel of the existing buffer in place. -/
def PPU.renderBuf (sine : Nat → Nat) (tick : Nat) (f : Frame) : Frame :=
  (List.range 240).foldl
    (fun g y => (List.range 256).foldl
      (fun g2 x => updatePix g2 y x (PPU.pixel sine tick y x)) g) f

/-- `PPU.render_frame(tick)`: overwrite the frame buffer with the test
pattern for `tick`, bump `frame_count`, and (the caller receives) the
frame. -/
def PPU.render_frame (sine : Nat → Nat) (p : PPU) (tick : Nat) : PPU :=
  { p with frame := PPU.renderBuf sine tick p.frame,
           frame_count := p.frame_count + 1 }

/-- `PPU.step`: advance the dot counter, wrapping at 341 dots per
scanline and 262 scanlines per frame. -/
def PPU.step (p : PPU) : PPU :=
  let c := p.cycle + 1
  if 341 ≤ c then
    let s := p.scanline + 1
    if 262 ≤ s then { p with cycle := 0, scanline := 0 }
    else { p with cycle := 0, scanline := s }
  else { p with cycle := c }

/-- The state advanced by one iteration of the `step_frame` loop body:
CPU and bus via `cpu.step()` (whose `mem_read`/`mem_write` are the
bus methods), then three `ppu.step()` calls. -/
abbrev Machine := CPU6502 × Bus × PPU

def machineStep (st : Machine) : Option Machine :=
  match CPU6502.step Bus.cpu_read Bus.cpu_write st.2.1 st.1 with
  | none => none
  | some (cpu2, bus2) => some (cpu2, bus2, PPU.step (PPU.step (PPU.step st.2.2)))

/-- The `while self.cpu.cycles < target_cycles and not self.cpu.halted:`
loop of `step_frame`.  `none` models a memory-access exception
propagating out of `cpu.step()`.  Termination: each successful
non-halted step strictly increases `cycles`. -/
def frameLoop (target : Nat) (st : Machine) : Option Machine :=
  if h : st.1.cycles < target ∧ st.1.halted = false then
    match hs : machineStep st with
    | none => none
    | some st2 => frameLoop target st2
  else some st
termination_by target - st.1.cycles
decreasing_by
  have hlt : st.1.cycles < st2.1.cycles := by
    unfold machineStep at hs
    cases hc : CPU6502.step Bus.cpu_read Bus.cpu_write st.2.1 st.1 with
    | none => rw [hc] at hs; exact absurd hs (by simp)
    | some p =>
      obtain ⟨cpu2, bus2⟩ := p
      rw [hc] at hs
      simp only [Option.some.injEq] at hs
      subst hs
      show st.1.cycles < cpu2.cycles
      unfold CPU6502.step at hc
      rw [if_neg (by simp [h.2])] at hc
      cases hr : Bus.cpu_read st.2.1 st.1.PC with
      | none => rw [hr] at hc; exact absurd hc (by simp)
      | some opcode =>
        rw [hr] at hc
        unfold CPU6502.exec at hc
        repeat' split at hc
        all_goals
          first
          | (simp only [CPU6502.commit, Option.some.injEq, Prod.mk.injEq] at hc
             have hcy := congrArg CPU6502.cycles hc.1
             simp at hcy
             omega)
          | simp at hc
  omega

/-- A fuel-counted rendering of the same loop, used to bound the
number of iterations: `none` means the fuel ran out, `some none` that
a memory exception escaped, `some (some st)` that the loop exited. -/
def frameLoopFuel : Nat → Nat → Machine → Option (Option Machine)
  | 0, _, _ => none
  | fuel+1, target, st =>
    if st.1.cycles < target ∧ st.1.halted = false then
      match machineStep st with
      | none => some none
      | some st2 => frameLoopFuel fuel target st2
    else some (some st)

/-- `SamsoftNES` console state (the UI-facing `running`/`paused`/`fps`
fields carry no core semantics and are omitted). -/
structure SamsoftNES where
  cart : Option Cartridge
  bus : Option Bus
  cpu : Option CPU6502
  ppu : PPU
  tick : Nat

/-- `SamsoftNES.__init__`: no cartridge, bus or CPU yet. -/
def SamsoftNES.init : SamsoftNES :=
  { cart := none, bus := none, cpu := none, ppu := PPU.init, tick := 0 }

/-- `SamsoftNES.reset`: reset the CPU if present (its `mem_read` is the
bus read method bound at construction; in every program path the CPU
exists exactly when the bus does), zero the tick and the PPU frame
counter. -/
def SamsoftNES.reset (c : SamsoftNES) : SamsoftNES :=
  let cpu2 :=
    match c.cpu, c.bus with
    | some cpu, some bus => some (cpu.reset (fun a => bus.cpu_read a))
    | some cpu, none => some (cpu.reset (fun _ => none))
    | none, _ => none
  { c with cpu := cpu2, tick := 0, ppu := { c.ppu with frame_count := 0 } }

/-- `SamsoftNES.load_rom`: build cartridge, bus and CPU from the file's
bytes and reset; on any loader exception, print and return `False`,
leaving every field untouched (the `Cartridge(rom_path)` constructor
raises before `self.cart` is assigned). -/
def SamsoftNES.load_rom (c : SamsoftNES) (data : List Nat) : Bool × SamsoftNES :=
  match Cartridge.load_from_file data with
  | Except.error _ => (false, c)
  | Except.ok cart =>
    let c2 := { c with cart := some cart, bus := some (Bus.init cart),
                       cpu := some CPU6502.init }
    (true, c2.reset)

/-- `SamsoftNES.step_frame`: if a CPU is loaded, run the cycle-budget
loop (`target = cycles + 29780`); then increment the tick and render.
`none` models a memory exception escaping the loop.  The
`some _, none` case (a CPU without a bus) is unreachable in the
program, which only constructs them together. -/
def SamsoftNES.step_frame (sine : Nat → Nat) (c : SamsoftNES) :
    Option (Frame × SamsoftNES) :=
  match c.cpu, c.bus with
  | some cpu, some bus =>
    match frameLoop (cpu.cycles + 29780) (cpu, bus, c.ppu) with
    | none => none
    | some st =>
      let t := c.tick + 1
      let p := PPU.render_frame sine st.2.2 t
      some (p.frame, { c with cpu := some st.1, bus := some st.2.1, ppu := p, tick := t })
  | some _, none => none
  | none, _ =>
    let t := c.tick + 1
    let p := PPU.render_frame sine c.ppu t
    some (p.frame, { c with ppu := p, tick := t })

/-- A concrete cartridge used as test input. -/
def cartA : Cartridge :=
  { prg_size := 16384, chr_size := 0, mapper := 0,
    prg_rom := [0xA9, 0x42, 0xEA, 0x00], chr_rom := [] }

/-- A trivial memory whose reads all return 0 (test input). -/
def memZero : Unit → Nat → Option Nat := fun _ _ => some 0

/-- A trivial memory write that ignores the store (test input). -/
def memWriteUnit : Unit → Nat → Nat → Option Unit := fun m _ _ => some m

/-- A read function with reset vector `0x1234` (test input). -/
def readVec : Nat → Option Nat := fun a =>
  if a = 0xFFFC then some 0x34 else if a = 0xFFFD then some 0x12 else some 0

/-- A freshly initialised CPU that has been halted (test input). -/
def cpuHalted : CPU6502 := { CPU6502.init with halted := true }

/-- The state after one step of a fresh CPU over `memZero`: opcode 0
is BRK. -/
def cpuBrk : CPU6502 :=
  { CPU6502.init with PC := 0x8001, halted := true, cycles := 7, total_cycles := 7 }

/-- A halted machine (test input). -/
def machineHalted : Machine := (cpuHalted, Bus.init cartA, PPU.init)

/-- A machine whose CPU is about to fetch from `0x4018`, inside the
APU/IO guard range but past the 24-byte `apu_regs` buffer. -/
def machineStuck : Machine :=
  ({ CPU6502.init with PC := 0x4018 }, Bus.init cartA, PPU.init)

/-- A constant stand-in for the sine table (test input). -/
def sineA : Nat → Nat := fun _ => 128

/-- A console with junk in the frame buffer (test input). -/
def ppuJunk : PPU := { PPU.init with frame := fun _ _ => (7, 7, 7) }

/-! ## Helper lemmas about `CPU6502.exec` and `CPU6502.step` -/

theorem exec_counts {M : Type} (read : M → Nat → Option Nat)
    (write : M → Nat → Nat → Option M) (m : M) (op : Nat) (s s2 : CPU6502) (m2 : M)
    (hm : CPU6502.exec read write m op s = some (s2, m2)) :
    s2.total_cycles = s.total_cycles + s2.cycles ∧ s.cycles < s2.cycles := by
  unfold CPU6502.exec at hm
  repeat' split at hm
  all_goals
    first
    | (simp only [CPU6502.commit, Option.some.injEq, Prod.mk.injEq] at hm
       have h1 := congrArg CPU6502.total_cycles hm.1
       have h2 := congrArg CPU6502.cycles hm.1
       simp at h1 h2
       constructor <;> omega)
    | simp at hm

theorem exec_halts_only_brk {M : Type} (read : M → Nat → Option Nat)
    (write : M → Nat → Nat → Option M) (m : M) (op : Nat) (s s2 : CPU6502) (m2 : M)
    (hop : op ≠ 0x00) (hm : CPU6502.exec read write m op s = some (s2, m2)) :
    s2.halted = s.halted := by
  unfold CPU6502.exec at hm
  repeat' split at hm
  all_goals try injections
  all_goals try subst_vars
  all_goals
    first
    | (exact absurd rfl hop)
    | simp

theorem exec_brk {M : Type} (read : M → Nat → Option Nat)
    (write : M → Nat → Nat → Option M) (m : M) (s : CPU6502) :
    CPU6502.exec read write m 0x00 s =
      some ({ s with halted := true, cycles := s.cycles + 7, total_cycles := s.total_cycles + (s.cycles + 7) }, m) :=
  rfl

theorem step_read_none {M : Type} (read : M → Nat → Option Nat)
    (write : M → Nat → Nat → Option M) (m : M) (s : CPU6502)
    (hh : s.halted = false) (hr : read m s.PC = none) :
    CPU6502.step read write m s = none := by
  unfold CPU6502.step
  rw [if_neg (by simp [hh]), hr]

theorem step_read_some {M : Type} (read : M → Nat → Option Nat)
    (write : M → Nat → Nat → Option M) (m : M) (s : CPU6502) (op : Nat)
    (hh : s.halted = false) (hr : read m s.PC = some op) :
    CPU6502.step read write m s =
      CPU6502.exec read write m op { s with PC := (s.PC + 1) % 0x10000 } := by
  unfold CPU6502.step
  rw [if_neg (by simp [hh]), hr]

/-! ## C3: reset establishes the documented register state -/

/-- C3: for every CPU state in which the memory reads at 0xFFFC and
0xFFFD succeed, after `reset()`: `PC` is the little-endian word
`(read 0xFFFD <<< 8) ||| read 0xFFFC`, `SP = 0xFD`, `P = 0x24`,
`A = X = Y = 0`, `cycles = 7`, `total_cycles = 0`, `halted = false`. -/
theorem reset_state_spec (read : Nat → Option Nat) (c : CPU6502) (lo hi : Nat)
    (hlo : read 0xFFFC = some lo) (hhi : read 0xFFFD = some hi) :
    CPU6502.reset read c =
      { A := 0, X := 0, Y := 0, SP := 0xFD, PC := (hi <<< 8) ||| lo, P := 0x24,
        cycles := 7, total_cycles := 0, halted := false } := by
  unfold CPU6502.reset
  rw [hlo, hhi]

/-- Witness for C3 at the concrete read function `readVec`. -/
theorem reset_state_spec_witness :
    CPU6502.reset readVec CPU6502.init =
      { A := 0, X := 0, Y := 0, SP := 0xFD, PC := (0x12 <<< 8) ||| 0x34, P := 0x24,
        cycles := 7, total_cycles := 0, halted := false } :=
  reset_state_spec readVec CPU6502.init 0x34 0x12 (by decide) (by decide)

/-! ## C4: total_cycles accumulation -/

/-- C4 counterexample: from a halted state (`cpuHalted`, with
`cycles = 0`, `total_cycles = 0`), `step` returns with `cycles = 1`
and `total_cycles = 0`, so `total_cycles' = total_cycles + cycles'`
fails: the halted early return skips the accumulation line. -/
theorem step_total_cycles_counterexample :
    CPU6502.step memZero memWriteUnit () cpuHalted = some ({ cpuHalted with cycles := 1 }, ()) ∧
    ¬ ({ cpuHalted with cycles := 1 } : CPU6502).total_cycles =
        cpuHalted.total_cycles + ({ cpuHalted with cycles := 1 } : CPU6502).cycles := by
  decide

/-- C4 (amended): after every `step` from a non-halted state that
returns without a memory exception, the new `total_cycles` equals the
old `total_cycles` plus the new (cumulative) `cycles` value. -/
theorem step_total_cycles_accumulates {M : Type} (read : M → Nat → Option Nat)
    (write : M → Nat → Nat → Option M) (m : M) (s s2 : CPU6502) (m2 : M)
    (hh : s.halted = false) (h : CPU6502.step read write m s = some (s2, m2)) :
    s2.total_cycles = s.total_cycles + s2.cycles := by
  cases hr : read m s.PC with
  | none => rw [step_read_none read write m s hh hr] at h; simp at h
  | some op =>
    rw [step_read_some read write m s op hh hr] at h
    have hc := (exec_counts read write m op _ s2 m2 h).1
    simpa using hc

/-- Witness for the amended C4: one BRK step from a fresh CPU. -/
theorem step_total_cycles_accumulates_witness :
    cpuBrk.total_cycles = CPU6502.init.total_cycles + cpuBrk.cycles :=
  step_total_cycles_accumulates memZero memWriteUnit () CPU6502.init cpuBrk () rfl (by decide)

/-! ## C5: the halted state is terminal until reset -/

/-- C5: a halted CPU's `step` keeps it halted and changes nothing but
`cycles`, which grows by exactly 1; from a running state, `step` halts
the CPU exactly when the fetched opcode is 0x00 (BRK, costing 7
cycles); and `reset` is what clears `halted`. -/
theorem halted_state_terminal :
    (∀ (M : Type) (read : M → Nat → Option Nat) (write : M → Nat → Nat → Option M)
        (m : M) (s : CPU6502), s.halted = true →
        CPU6502.step read write m s = some ({ s with cycles := s.cycles + 1 }, m)) ∧
    (∀ (M : Type) (read : M → Nat → Option Nat) (write : M → Nat → Nat → Option M)
        (m : M) (s s2 : CPU6502) (m2 : M),
        s.halted = false → CPU6502.step read write m s = some (s2, m2) →
        ((s2.halted = true ↔ read m s.PC = some 0x00) ∧
         (read m s.PC = some 0x00 → s2.cycles = s.cycles + 7))) ∧
    (∀ (read : Nat → Option Nat) (c : CPU6502), (CPU6502.reset read c).halted = false) := by
  refine ⟨?_, ?_, ?_⟩
  · intro M read write m s hs
    unfold CPU6502.step
    rw [if_pos (by simp [hs])]
  · intro M read write m s s2 m2 hh h
    cases hr : read m s.PC with
    | none => rw [step_read_none read write m s hh hr] at h; simp at h
    | some op =>
      rw [step_read_some read write m s op hh hr] at h
      by_cases hop : op = 0x00
      · subst hop
        rw [exec_brk] at h
        simp only [Option.some.injEq, Prod.mk.injEq] at h
        obtain ⟨h1, -⟩ := h
        have hhal : s2.halted = true := by rw [← h1]
        have hcyc : s2.cycles = s.cycles + 7 := by rw [← h1]
        exact ⟨⟨fun _ => rfl, fun _ => hhal⟩, fun _ => hcyc⟩
      · have hpres0 := exec_halts_only_brk read write m op _ s2 m2 hop h
        have hpres : s2.halted = s.halted := hpres0
        constructor
        · constructor
          · intro h2
            rw [hpres, hh] at h2
            simp at h2
          · intro hread
            simp at hread
            exact absurd hread hop
        · intro hread
          simp at hread
          exact absurd hread hop
  · intro read c
    rfl

/-- Witness for C5: a halted fresh CPU, a BRK step, and a reset. -/
theorem halted_state_terminal_witness :
    CPU6502.step memZero memWriteUnit () cpuHalted = some ({ cpuHalted with cycles := cpuHalted.cycles + 1 }, ()) ∧
    ((cpuBrk.halted = true ↔ memZero () CPU6502.init.PC = some 0x00) ∧
     (memZero () CPU6502.init.PC = some 0x00 → cpuBrk.cycles = CPU6502.init.cycles + 7)) ∧
    (CPU6502.reset readVec CPU6502.init).halted = false :=
  ⟨halted_state_terminal.1 Unit memZero memWriteUnit () cpuHalted rfl,
   halted_state_terminal.2.1 Unit memZero memWriteUnit () CPU6502.init cpuBrk () rfl (by decide),
   halted_state_terminal.2.2 readVec CPU6502.init⟩

/-! ## Helper lemmas about byte-buffer access -/

theorem bget_eq_none {l : List Nat} {i : Nat} (h : l.length ≤ i) : bget l i = none :=
  List.get?_eq_none.mpr h

theorem bget_isSome {l : List Nat} {i : Nat} (h : i < l.length) :
    (bget l i).isSome = true := by
  rw [bget, List.get?_eq_get h]
  rfl

theorem bget_getD {l : List Nat} {i : Nat} (h : i < l.length) :
    bget l i = some (l.getD i 0) := by
  rw [bget, List.get?_eq_get h]
  congr 1
  simp [List.getD_eq_getElem?_getD, ← List.get?_eq_getElem?, List.get?_eq_get h]

theorem bset_none {l : List Nat} {i : Nat} (v : Nat) (h : l.length ≤ i) :
    bset l i v = none := by
  unfold bset
  rw [if_neg (by omega)]

theorem bset_some {l : List Nat} {i : Nat} (v : Nat) (h : i < l.length) :
    bset l i v = some (l.set i v) := by
  unfold bset
  rw [if_pos h]

theorem bget_set_self {l : List Nat} {i : Nat} (x : Nat) (h : i < l.length) :
    bget (l.set i x) i = some x := by
  rw [bget, List.get?_eq_get (by simpa using h)]
  simp [List.getElem_set_self]

theorem busInit_WF (cart : Cartridge) : (Bus.init cart).WF :=
  ⟨List.length_replicate _ _, List.length_replicate _ _, List.length_replicate _ _⟩

/-! ## C1: the APU/IO window and bus totality -/

/-- C1 (code bug): with the buffer sizes `Bus.__init__` establishes,
reads and writes at `0x4018`-`0x401F` raise `IndexError` (`= none`):
the guard admits 32 addresses but `apu_regs` holds only 24 bytes.
Addresses `0x4000`-`0x4017` are served without failing. -/
theorem apu_window_access_raises (b : Bus) (h : b.WF) (v : Nat) :
    Bus.cpu_read b 0x4018 = none ∧ Bus.cpu_write b 0x4018 v = none ∧
    (∀ a, 0x4000 ≤ a → a < 0x4018 →
      (Bus.cpu_read b a).isSome = true ∧ (Bus.cpu_write b a v).isSome = true) := by
  obtain ⟨hram, hppu, hapu⟩ := h
  refine ⟨?_, ?_, ?_⟩
  · simp only [Bus.cpu_read]
    norm_num
    exact bget_eq_none (by omega)
  · simp only [Bus.cpu_write]
    norm_num
    rw [bset_none _ (by omega)]
  · intro a ha1 ha2
    have hmod : a % 0x10000 = a := Nat.mod_eq_of_lt (by omega)
    constructor
    · simp only [Bus.cpu_read]
      rw [hmod, if_neg (by omega), if_neg (by omega), if_pos (by omega)]
      exact bget_isSome (by omega)
    · simp only [Bus.cpu_write]
      rw [hmod, if_neg (by omega), if_neg (by omega), if_pos (by omega)]
      rw [bset_some _ (by omega)]
      rfl

/-- Witness for C1 on a freshly constructed bus. -/
theorem apu_window_access_raises_witness :
    Bus.cpu_read (Bus.init cartA) 0x4018 = none ∧
    Bus.cpu_write (Bus.init cartA) 0x4018 0x55 = none ∧
    (∀ a, 0x4000 ≤ a → a < 0x4018 →
      (Bus.cpu_read (Bus.init cartA) a).isSome = true ∧
      (Bus.cpu_write (Bus.init cartA) a 0x55).isSome = true) :=
  apu_window_access_raises (Bus.init cartA) (busInit_WF cartA) 0x55

/-! ## C7: RAM mirroring every 0x800 -/

/-- C7: for `a` and `a + 0x800*k` both inside `[0, 0x2000)`, reads of
the two addresses agree, and a write through either address (a write
is the masked byte `v % 0x100`) is observed by a read of the other,
for every RAM contents of the stated 2 KiB size. -/
theorem ram_mirroring (b : Bus) (hram : b.cpu_ram.length = 0x0800) (a k v : Nat)
    (ha : a < 0x2000) (hak : a + 0x0800 * k < 0x2000) :
    Bus.cpu_read b (a + 0x0800 * k) = Bus.cpu_read b a ∧
    (∀ b2, Bus.cpu_write b a v = some b2 →
        Bus.cpu_read b2 (a + 0x0800 * k) = some (v % 0x100)) ∧
    (∀ b2, Bus.cpu_write b (a + 0x0800 * k) v = some b2 →
        Bus.cpu_read b2 a = some (v % 0x100)) := by
  have hmodA : (a + 0x0800 * k) % 0x10000 = a + 0x0800 * k := Nat.mod_eq_of_lt (by omega)
  have hmoda : a % 0x10000 = a := Nat.mod_eq_of_lt (by omega)
  have hmm : (a + 0x0800 * k) % 0x0800 = a % 0x0800 := Nat.add_mul_mod_self_left a 0x0800 k
  have hidx : a % 0x0800 < b.cpu_ram.length := by
    rw [hram]; exact Nat.mod_lt _ (by norm_num)
  refine ⟨?_, ?_, ?_⟩
  · simp only [Bus.cpu_read]
    rw [hmodA, hmoda, if_pos hak, if_pos ha, hmm]
  · intro b2 hw
    simp only [Bus.cpu_write] at hw
    rw [hmoda, if_pos ha, bset_some _ hidx] at hw
    simp only [Option.map_some', Option.some.injEq] at hw
    subst hw
    simp only [Bus.cpu_read]
    rw [hmodA, if_pos hak, hmm]
    exact bget_set_self _ hidx
  · intro b2 hw
    simp only [Bus.cpu_write] at hw
    rw [hmodA, if_pos hak, hmm, bset_some _ hidx] at hw
    simp only [Option.map_some', Option.some.injEq] at hw
    subst hw
    simp only [Bus.cpu_read]
    rw [hmoda, if_pos ha]
    exact bget_set_self _ hidx

/-- Witness for C7: address 0x123 and its mirror 0x1123. -/
theorem ram_mirroring_witness :
    Bus.cpu_read (Bus.init cartA) (0x123 + 0x0800 * 2) = Bus.cpu_read (Bus.init cartA) 0x123 ∧
    (∀ b2, Bus.cpu_write (Bus.init cartA) 0x123 0x1AB = some b2 →
        Bus.cpu_read b2 (0x123 + 0x0800 * 2) = some (0x1AB % 0x100)) ∧
    (∀ b2, Bus.cpu_write (Bus.init cartA) (0x123 + 0x0800 * 2) 0x1AB = some b2 →
        Bus.cpu_read b2 0x123 = some (0x1AB % 0x100)) :=
  ram_mirroring (Bus.init cartA) (List.length_replicate _ _) 0x123 2 0x1AB
    (by decide) (by decide)

/-! ## C8: PRG ROM mirroring by modulo wrap -/

/-- C8: with a cartridge whose PRG buffer has length `L` with
`0 < L < 0x8000`, every read in the `0x8000`-`0xFFFF` window returns
`prg_rom[i % L]`. -/
theorem prg_rom_mirroring (b : Bus) (cart : Cartridge) (hc : b.cart = some cart)
    (hL0 : 0 < cart.prg_rom.length) (hL1 : cart.prg_rom.length < 0x8000)
    (i : Nat) (hi : i < 0x8000) :
    Bus.cpu_read b (0x8000 + i) =
      some (cart.prg_rom.getD (i % cart.prg_rom.length) 0) := by
  have hmod : (0x8000 + i) % 0x10000 = 0x8000 + i := Nat.mod_eq_of_lt (by omega)
  simp only [Bus.cpu_read]
  rw [hmod, if_neg (by omega), if_neg (by omega), if_neg (by omega), if_pos (by omega), hc]
  simp only [ne_eq]
  rw [if_pos (List.length_pos.mp hL0)]
  rw [Nat.add_sub_cancel_left]
  by_cases him : cart.prg_rom.length ≤ i
  · rw [if_pos him]
    exact bget_getD (Nat.mod_lt _ hL0)
  · rw [if_neg him]
    rw [Nat.mod_eq_of_lt (by omega)]
    exact bget_getD (by omega)

/-- Witness for C8: reading 0x8006 from a 4-byte PRG image yields
byte 2 of the image. -/
theorem prg_rom_mirroring_witness :
    Bus.cpu_read (Bus.init cartA) (0x8000 + 6) =
      some (cartA.prg_rom.getD (6 % cartA.prg_rom.length) 0) :=
  prg_rom_mirroring (Bus.init cartA) cartA rfl (by decide) (by decide) 6 (by decide)

/-! ## C2: bad magic fails the load and mutates nothing -/

/-- C2: for every file whose first four bytes are not `NES\x1a`, the
loader raises the invalid-format `ValueError`, `load_rom` returns
`False` instead of propagating it, and the console record - its
`cart`, `bus` and `cpu` fields included - is returned exactly as it
was. -/
theorem load_rom_bad_magic (c : SamsoftNES) (data : List Nat)
    (h : data.take 4 ≠ nesMagic) :
    Cartridge.load_from_file data = Except.error "Not a valid iNES file" ∧
    SamsoftNES.load_rom c data = (false, c) := by
  have h16 : (data.take 16).take 4 = data.take 4 := by
    rw [List.take_take]
    norm_num
  have hload : Cartridge.load_from_file data = Except.error "Not a valid iNES file" := by
    simp only [Cartridge.load_from_file]
    rw [h16, if_pos h]
  refine ⟨hload, ?_⟩
  unfold SamsoftNES.load_rom
  rw [hload]

/-- Witness for C2: a four-byte file that is not an iNES image. -/
theorem load_rom_bad_magic_witness :
    Cartridge.load_from_file [0x4E, 0x45, 0x53, 0x00] = Except.error "Not a valid iNES file" ∧
    SamsoftNES.load_rom SamsoftNES.init [0x4E, 0x45, 0x53, 0x00] = (false, SamsoftNES.init) :=
  load_rom_bad_magic SamsoftNES.init [0x4E, 0x45, 0x53, 0x00] (by decide)

/-! ## C9: render_frame writes every pixel from tick alone -/

/-- After folding one row's writes, an in-row position holds the
freshly computed value and every other position is untouched. -/
theorem foldl_row_pixel (g : Nat → Nat × Nat × Nat) (y : Nat) :
    ∀ (l : List Nat) (f : Frame) (y2 x2 : Nat),
      (l.foldl (fun acc x => updatePix acc y x (g x)) f) y2 x2 =
        if y2 = y ∧ x2 ∈ l then clamp8 (g x2) else f y2 x2 := by
  intro l
  induction l with
  | nil => intro f y2 x2; simp
  | cons a t ih =>
    intro f y2 x2
    simp only [List.foldl_cons]
    rw [ih]
    by_cases h1 : y2 = y ∧ x2 ∈ t
    · rw [if_pos h1, if_pos ⟨h1.1, List.mem_cons_of_mem a h1.2⟩]
    · rw [if_neg h1]
      unfold updatePix
      by_cases h2 : y2 = y ∧ x2 = a
      · rw [if_pos h2, if_pos ⟨h2.1, by rw [h2.2]; exact List.mem_cons_self a t⟩, h2.2]
      · rw [if_neg h2, if_neg ?_]
        intro hcon
        rcases List.mem_cons.mp hcon.2 with hx | hx
        · exact h2 ⟨hcon.1, hx⟩
        · exact h1 ⟨hcon.1, hx⟩

/-- After folding all rows, an in-range position holds the freshly
computed value and every other position is untouched. -/
theorem foldl_rows_pixel (g : Nat → Nat → Nat × Nat × Nat) :
    ∀ (L : List Nat) (f : Frame) (y2 x2 : Nat),
      (L.foldl (fun acc y => (List.range 256).foldl
          (fun a2 x => updatePix a2 y x (g y x)) acc) f) y2 x2 =
        if y2 ∈ L ∧ x2 ∈ List.range 256 then clamp8 (g y2 x2) else f y2 x2 := by
  intro L
  induction L with
  | nil => intro f y2 x2; simp
  | cons a t ih =>
    intro f y2 x2
    simp only [List.foldl_cons]
    rw [ih]
    by_cases h1 : y2 ∈ t ∧ x2 ∈ List.range 256
    · rw [if_pos h1, if_pos ⟨List.mem_cons_of_mem a h1.1, h1.2⟩]
    · rw [if_neg h1, foldl_row_pixel]
      by_cases h2 : y2 = a ∧ x2 ∈ List.range 256
      · rw [if_pos h2, if_pos ⟨by rw [h2.1]; exact List.mem_cons_self a t, h2.2⟩, h2.1]
      · rw [if_neg h2, if_neg ?_]
        intro hcon
        rcases List.mem_cons.mp hcon.1 with hy | hy
        · exact h2 ⟨hy, hcon.2⟩
        · exact h1 ⟨hy, hcon.2⟩

/-- Every in-range pixel of the rendered buffer is `pixel` of the tick
alone, independent of the previous buffer contents. -/
theorem renderBuf_pixel (sine : Nat → Nat) (tick : Nat) (f : Frame) (y x : Nat)
    (hy : y < 240) (hx : x < 256) :
    PPU.renderBuf sine tick f y x = clamp8 (PPU.pixel sine tick y x) := by
  unfold PPU.renderBuf
  rw [foldl_rows_pixel]
  rw [if_pos ⟨List.mem_range.mpr hy, List.mem_range.mpr hx⟩]

/-- C9: `render_frame` is deterministic in `tick`: from any two
starting frame buffers, the same tick produces identical 240x256
frames, each pixel given by the pattern selected by
`(tick / 60) % 4`. -/
theorem render_frame_deterministic (sine : Nat → Nat) (tick : Nat) (p1 p2 : PPU)
    (y x : Nat) (hy : y < 240) (hx : x < 256) :
    (PPU.render_frame sine p1 tick).frame y x = (PPU.render_frame sine p2 tick).frame y x ∧
    (PPU.render_frame sine p1 tick).frame y x = clamp8 (PPU.pixel sine tick y x) := by
  unfold PPU.render_frame
  constructor
  · simp only []
    rw [renderBuf_pixel sine tick p1.frame y x hy hx,
        renderBuf_pixel sine tick p2.frame y x hy hx]
  · simp only []
    rw [renderBuf_pixel sine tick p1.frame y x hy hx]

/-- Witness for C9 at tick 0 from two different starting buffers. -/
theorem render_frame_deterministic_witness :
    ((PPU.render_frame sineA PPU.init 0).frame 0 0 = (PPU.render_frame sineA ppuJunk 0).frame 0 0) ∧
    (PPU.render_frame sineA PPU.init 0).frame 0 0 = clamp8 (PPU.pixel sineA 0 0 0) :=
  render_frame_deterministic sineA 0 PPU.init ppuJunk 0 0 (by decide) (by decide)

/-! ## C6: the step_frame loop -/

theorem machineStep_cycles_lt (st st2 : Machine) (hh : st.1.halted = false)
    (hm : machineStep st = some st2) : st.1.cycles < st2.1.cycles := by
  unfold machineStep at hm
  cases hc : CPU6502.step Bus.cpu_read Bus.cpu_write st.2.1 st.1 with
  | none => rw [hc] at hm; simp at hm
  | some p =>
    obtain ⟨cpu2, bus2⟩ := p
    rw [hc] at hm
    simp only [Option.some.injEq] at hm
    subst hm
    show st.1.cycles < cpu2.cycles
    cases hr : Bus.cpu_read st.2.1 st.1.PC with
    | none => rw [step_read_none _ _ _ _ hh hr] at hc; simp at hc
    | some op =>
      rw [step_read_some _ _ _ _ op hh hr] at hc
      have hcy := (exec_counts _ _ _ op _ cpu2 bus2 hc).2
      simpa using hcy

theorem frameLoopFuel_sound : ∀ (fuel target : Nat) (st : Machine),
    target - st.1.cycles < fuel →
    frameLoopFuel fuel target st = some (frameLoop target st) := by
  intro fuel
  induction fuel with
  | zero => intro target st h; omega
  | succ n ih =>
    intro target st h
    rw [frameLoop]
    by_cases hc : st.1.cycles < target ∧ st.1.halted = false
    · rw [dif_pos hc]
      unfold frameLoopFuel
      rw [if_pos hc]
      cases hm : machineStep st with
      | none => simp [hm]
      | some st2 =>
        simp only [hm]
        have hlt := machineStep_cycles_lt st st2 hc.2 hm
        exact ih target st2 (by omega)
    · rw [dif_neg hc]
      unfold frameLoopFuel
      rw [if_neg hc]

theorem frameLoopFuel_exit : ∀ (fuel target : Nat) (st st2 : Machine),
    frameLoopFuel fuel target st = some (some st2) →
    target ≤ st2.1.cycles ∨ st2.1.halted = true := by
  intro fuel
  induction fuel with
  | zero => intro target st st2 h; simp [frameLoopFuel] at h
  | succ n ih =>
    intro target st st2 h
    unfold frameLoopFuel at h
    by_cases hc : st.1.cycles < target ∧ st.1.halted = false
    · rw [if_pos hc] at h
      cases hm : machineStep st with
      | none => rw [hm] at h; simp at h
      | some st3 => rw [hm] at h; exact ih target st3 st2 h
    · rw [if_neg hc] at h
      simp only [Option.some.injEq] at h
      subst h
      by_cases hh : st.1.halted = true
      · exact Or.inr hh
      · left
        have hh2 : st.1.halted = false := by
          cases hb : st.1.halted
          · rfl
          · exact absurd hb hh
        have : ¬ st.1.cycles < target := fun hlt => hc ⟨hlt, hh2⟩
        omega

theorem frameLoop_exit (target : Nat) (st st2 : Machine)
    (h : frameLoop target st = some st2) :
    target ≤ st2.1.cycles ∨ st2.1.halted = true := by
  have hs := frameLoopFuel_sound (target - st.1.cycles + 1) target st (by omega)
  rw [h] at hs
  exact frameLoopFuel_exit _ target st st2 hs

/-- C6: every successful non-halted `cpu.step()` strictly increases
`cycles`; the `step_frame` loop, whenever it returns a state, has
reached `cycles >= target` or a halt; and with the per-frame budget
`target = cycles + 29780` the loop always finishes (one way or the
other) within 29781 iterations.  At `machineStuck`, however, the first
`cpu.step()` raises `IndexError` (fetch from 0x4018, past the 24-byte
`apu_regs`), so the loop aborts by exception instead of reaching
`cycles >= target` or `halted`. -/
theorem step_frame_loop_terminates :
    (∀ (M : Type) (read : M → Nat → Option Nat) (write : M → Nat → Nat → Option M)
        (m : M) (s s2 : CPU6502) (m2 : M),
        s.halted = false → CPU6502.step read write m s = some (s2, m2) →
        s.cycles < s2.cycles) ∧
    (∀ (target : Nat) (st st2 : Machine), frameLoop target st = some st2 →
        target ≤ st2.1.cycles ∨ st2.1.halted = true) ∧
    (∀ st : Machine, frameLoopFuel 29781 (st.1.cycles + 29780) st =
        some (frameLoop (st.1.cycles + 29780) st)) ∧
    frameLoop (machineStuck.1.cycles + 29780) machineStuck = none := by
  refine ⟨?_, frameLoop_exit, ?_, ?_⟩
  · intro M read write m s s2 m2 hh h
    cases hr : read m s.PC with
    | none => rw [step_read_none read write m s hh hr] at h; simp at h
    | some op =>
      rw [step_read_some read write m s op hh hr] at h
      have hcy := (exec_counts read write m op _ s2 m2 h).2
      simpa using hcy
  · intro st
    exact frameLoopFuel_sound 29781 _ st (by omega)
  · have h1 : frameLoopFuel 29781 (machineStuck.1.cycles + 29780) machineStuck = some none := rfl
    have h2 := frameLoopFuel_sound 29781 (machineStuck.1.cycles + 29780) machineStuck (by omega)
    rw [h1] at h2
    exact (Option.some.inj h2).symm

/-- Witness for C6: the BRK step increases cycles, and a halted
machine exits the loop immediately. -/
theorem step_frame_loop_terminates_witness :
    CPU6502.init.cycles < cpuBrk.cycles ∧
    (5 ≤ machineHalted.1.cycles ∨ machineHalted.1.halted = true) :=
  ⟨step_frame_loop_terminates.1 Unit memZero memWriteUnit () CPU6502.init cpuBrk () rfl (by decide),
   step_frame_loop_terminates.2.1 5 machineHalted machineHalted
     (by rw [frameLoop, dif_neg (by decide)])⟩

/-! ## C10: step_frame before any cartridge is loaded -/

/-- C10: with no CPU loaded, `step_frame` skips the stepping loop,
increments `tick` by exactly one, and returns the frame produced by
`render_frame` for the new tick (the console keeping that PPU). -/
theorem step_frame_no_cpu (sine : Nat → Nat) (c : SamsoftNES) (h : c.cpu = none) :
    SamsoftNES.step_frame sine c =
      some ((PPU.render_frame sine c.ppu (c.tick + 1)).frame,
        { c with ppu := PPU.render_frame sine c.ppu (c.tick + 1), tick := c.tick + 1 }) := by
  unfold SamsoftNES.step_frame
  rw [h]

/-- Witness for C10 on the freshly initialised console. -/
theorem step_frame_no_cpu_witness :
    SamsoftNES.step_frame sineA SamsoftNES.init =
      some ((PPU.render_frame sineA SamsoftNES.init.ppu (SamsoftNES.init.tick + 1)).frame,
        { SamsoftNES.init with ppu := PPU.render_frame sineA SamsoftNES.init.ppu (SamsoftNES.init.tick + 1),
                               tick := SamsoftNES.init.tick + 1 }) :=
  step_frame_no_cpu sineA SamsoftNES.init rfl
